import Mathlib

/-!
Verification of the fast-cohen row-statistics pipeline (src/main.rs).

Shallow embedding conventions:
- Rust `f64` values are modelled as exact numbers: the generic statistics
  kernel (`mean`, `var`, generic over a `Float` trait in the source) is
  embedded generically over a `Field`, instantiated at `ℚ` for decidable
  evaluation and at `ℝ` where `cohen`'s `powf(0.5)` (square root) is needed.
- A Rust panic (`unwrap`, `expect`) is modelled as `Option.none`
  propagation; a function that can panic returns `Option`.
- `powf(0.5)` is modelled as `Real.sqrt` (they agree on nonnegative
  arguments; in the source the argument is a pooled variance).
- CSV parsing is out of the modelled core: `process_csvs` is embedded on
  already-parsed rows (a name string plus a list of numeric fields), which
  is the data the source manipulates after line 108.
-/

namespace FastCohen

/-- Embeds `mean` (src/main.rs lines 126-137): sum of the values divided by
their count, `none` when the input is empty (the source returns `None`). -/
def mean {F : Type} [Field F] (data : List F) : Option F :=
  let count := data.length
  let sum := data.sum
  if 0 < count then some (sum / (count : F)) else none

/-- Embeds `var` (src/main.rs lines 140-158): sum of squared deviations from
the mean divided by `count - 1` (truncated `usize` subtraction, as in the
source). The source calls `mean(...).unwrap()`, a panic on empty input,
modelled by `Option.map` propagating `none`. -/
def var {F : Type} [Field F] (data : List F) : Option F :=
  (mean data).map (fun data_mean =>
    (data.map (fun value =>
      let diff := value - data_mean
      diff * diff)).sum / ((data.length - 1 : ℕ) : F))

/-- Embeds `cohen` (src/main.rs lines 161-178). The source computes the
pooled standard deviation as `pooled_variance.powf(0.5)` (= `Real.sqrt` on
the nonnegative pooled variance), returns 0 when it is exactly 0, and
otherwise divides the difference of the group means by it. The `unwrap`s on
`var` and `mean` (panics on empty input) are modelled by `Option` bind. -/
noncomputable def cohen (case control : List ℝ) : Option ℝ := do
  let var_case ← var case
  let var_control ← var control
  let n_case : ℝ := case.length
  let n_control : ℝ := control.length
  let pooled_stdev := Real.sqrt
    (((n_case - 1) * var_case + (n_control - 1) * var_control)
      / (n_case + n_control - 2))
  if pooled_stdev = 0 then
    return 0
  else
    let mean_case ← mean case
    let mean_control ← mean control
    return (mean_case - mean_control) / pooled_stdev

/-- Modelled from the spec (section 4.1): the arithmetic mean `sum/count`,
as a total function, used to compare the code with the spec formulas. -/
noncomputable def meanS (l : List ℝ) : ℝ := l.sum / l.length

/-- Modelled from the spec (section 4.1): sample variance, the sum of
squared deviations `(value - mean)^2` divided by `count - 1`. -/
noncomputable def varS (l : List ℝ) : ℝ :=
  (l.map (fun v => (v - meanS l) ^ 2)).sum / ((l.length : ℝ) - 1)

/-- Modelled from the spec (section 4.1, step 2): pooled variance
`((n_case-1)*variance(case) + (n_control-1)*variance(control)) /
(n_case + n_control - 2)`. -/
noncomputable def pooledVarS (case control : List ℝ) : ℝ :=
  (((case.length : ℝ) - 1) * varS case
    + ((control.length : ℝ) - 1) * varS control)
    / ((case.length : ℝ) + (control.length : ℝ) - 2)

/-- `mean` succeeds exactly on nonempty input, returning `sum / count`. -/
theorem mean_eq_some {F : Type} [Field F] (l : List F) (h : l ≠ []) :
    mean l = some (l.sum / (l.length : F)) := by
  unfold mean
  simp [List.length_pos.mpr h]

theorem mean_nil {F : Type} [Field F] : mean ([] : List F) = none := rfl

/-- On nonempty input the code's `var` computes the sample-variance
formula with real (not truncated) subtraction in the denominator. -/
theorem var_eq_some {F : Type} [Field F] (l : List F) (h : l ≠ []) :
    var l = some ((l.map (fun v => (v - l.sum / (l.length : F)) ^ 2)).sum
      / ((l.length : F) - 1)) := by
  have hlen : 1 ≤ l.length := List.length_pos.mpr h
  unfold var
  rw [mean_eq_some l h]
  simp only [Option.map_some']
  congr 1
  have hcast : ((l.length - 1 : ℕ) : F) = (l.length : F) - 1 := by
    push_cast [hlen]; ring
  rw [hcast]
  congr 1
  apply congrArg
  apply List.map_congr_left
  intro v _
  ring

/-- On nonempty input the code's `var` computes the spec's sample
variance. -/
theorem var_eq_varS (l : List ℝ) (h : l ≠ []) : var l = some (varS l) := by
  rw [var_eq_some l h]
  simp only [varS, meanS]

/-- Evaluation of `cohen` on nonempty groups, in terms of the spec-side
formulas: the pooled standard deviation is the square root of the pooled
variance, a zero pooled standard deviation yields 0, and otherwise the
difference of means is divided by it. -/
theorem cohen_eq (case control : List ℝ) (hc : case ≠ []) (hk : control ≠ []) :
    cohen case control =
      some (if Real.sqrt (pooledVarS case control) = 0 then 0
        else (meanS case - meanS control) / Real.sqrt (pooledVarS case control)) := by
  unfold cohen
  rw [var_eq_varS case hc, var_eq_varS control hk]
  have hE : (((case.length : ℝ) - 1) * varS case
      + ((control.length : ℝ) - 1) * varS control)
      / ((case.length : ℝ) + (control.length : ℝ) - 2)
      = pooledVarS case control := rfl
  simp only [bind, Option.bind, pure, hE]
  split_ifs with h
  · rfl
  · rw [mean_eq_some case hc, mean_eq_some control hk]
    simp only [bind, Option.bind]
    rfl

/-- Helper: a list of length at least 1 is nonempty. -/
theorem ne_nil_of_two_le {α : Type} {l : List α} (h : 2 ≤ l.length) : l ≠ [] := by
  intro e
  rw [e] at h
  simp at h

/-- C1: for case and control groups with at least 2 values each, if the
pooled standard deviation (square root of the pooled variance
`((n_case-1)*variance(case) + (n_control-1)*variance(control)) /
(n_case+n_control-2)`) is nonzero, then `cohen` returns
`(mean(case) - mean(control)) / pooled_standard_deviation`. -/
theorem cohen_formula (case control : List ℝ)
    (hcase : 2 ≤ case.length) (hcontrol : 2 ≤ control.length)
    (hsd : Real.sqrt (pooledVarS case control) ≠ 0) :
    cohen case control =
      some ((meanS case - meanS control) / Real.sqrt (pooledVarS case control)) := by
  rw [cohen_eq case control (ne_nil_of_two_le hcase) (ne_nil_of_two_le hcontrol),
    if_neg hsd]

/-- Witness for C1 at case `[0,1]`, control `[0,0]`: the pooled variance is
`1/4`, its square root `1/2` is nonzero, and `cohen` returns the ratio of
the mean difference to it. -/
theorem cohen_formula_witness :
    2 ≤ ([0, 1] : List ℝ).length ∧ 2 ≤ ([0, 0] : List ℝ).length ∧
    Real.sqrt (pooledVarS [0, 1] [0, 0]) ≠ 0 ∧
    cohen [0, 1] [0, 0] =
      some ((meanS [0, 1] - meanS [0, 0]) / Real.sqrt (pooledVarS [0, 1] [0, 0])) := by
  have hp : pooledVarS [0, 1] [0, 0] = 1 / 4 := by
    norm_num [pooledVarS, varS, meanS]
  have hsd : Real.sqrt (pooledVarS [0, 1] [0, 0]) ≠ 0 := by
    rw [hp, Real.sqrt_ne_zero']
    norm_num
  exact ⟨by norm_num, by norm_num, hsd,
    cohen_formula [0, 1] [0, 0] (by norm_num) (by norm_num) hsd⟩

/-- C3: for case and control groups with at least 2 values each, if the
pooled standard deviation is exactly 0, `cohen` returns 0 (a defined value,
not a failure), whatever the means are. -/
theorem cohen_zero_spread (case control : List ℝ)
    (hcase : 2 ≤ case.length) (hcontrol : 2 ≤ control.length)
    (hsd : Real.sqrt (pooledVarS case control) = 0) :
    cohen case control = some 0 := by
  rw [cohen_eq case control (ne_nil_of_two_le hcase) (ne_nil_of_two_le hcontrol),
    if_pos hsd]

/-- Witness for C3 at case `[1,1,1]`, control `[1,1,1]`: both variances are
0, so the pooled standard deviation is 0 and `cohen` returns `some 0`. -/
theorem cohen_zero_spread_witness :
    2 ≤ ([1, 1, 1] : List ℝ).length ∧ 2 ≤ ([1, 1, 1] : List ℝ).length ∧
    Real.sqrt (pooledVarS [1, 1, 1] [1, 1, 1]) = 0 ∧
    cohen [1, 1, 1] [1, 1, 1] = some 0 := by
  have hsd : Real.sqrt (pooledVarS [1, 1, 1] [1, 1, 1]) = 0 := by
    have hp : pooledVarS [1, 1, 1] [1, 1, 1] = 0 := by
      norm_num [pooledVarS, varS, meanS]
    rw [hp, Real.sqrt_zero]
  exact ⟨by norm_num, by norm_num, hsd,
    cohen_zero_spread [1, 1, 1] [1, 1, 1] (by norm_num) (by norm_num) hsd⟩

/-- C5: `mean` fails (returns `none`, the source's `None`) exactly on empty
input; on nonempty input it returns the sum divided by the count, with
`mean [1,2,3] = 2` and `mean [10,10,10] = 10`. -/
theorem mean_spec :
    (∀ l : List ℚ, (mean l = none ↔ l = []) ∧
      (l ≠ [] → mean l = some (l.sum / (l.length : ℚ)))) ∧
    mean ([1, 2, 3] : List ℚ) = some 2 ∧
    mean ([10, 10, 10] : List ℚ) = some 10 := by
  refine ⟨fun l => ⟨?_, mean_eq_some l⟩, ?_, ?_⟩
  · cases l <;> simp [mean]
  · norm_num [mean]
  · norm_num [mean]

/-- Witness for C5: applying the theorem at the nonempty input `[2,4]`. -/
theorem mean_spec_witness :
    mean ([2, 4] : List ℚ)
      = some (([2, 4] : List ℚ).sum / ((([2, 4] : List ℚ).length : ℕ) : ℚ)) :=
  (mean_spec.1 [2, 4]).2 (by decide)

/-- Counterexample to C4: on the singleton input `[1]` (fewer than 2
values) the source's `var` does not fail: `mean` succeeds, the sum of
squared deviations is 0, and the division by `count - 1 = 0` produces a
value (`0.0/0.0`, IEEE NaN, in the source; a defined value rather than a
panic), so the result is not `none`. -/
theorem var_singleton_counterexample : var ([1] : List ℚ) ≠ none := by decide

/-- C4 amended: `var` fails only on empty input (the `unwrap` of `mean`);
a singleton input yields a value, not an `InsufficientSamples` failure; on
inputs with at least 2 values it returns the sample variance (sum of
squared deviations from the mean divided by `count - 1`), with
`var [1,2,3] = 1`, `var [10,10,10] = 0`, `var [1,2,1] = 1/3`. -/
theorem var_amended :
    (∀ l : List ℚ, (var l = none ↔ l = []) ∧
      (2 ≤ l.length →
        var l = some ((l.map (fun v => (v - l.sum / (l.length : ℚ)) ^ 2)).sum
          / ((l.length : ℚ) - 1)))) ∧
    var ([1, 2, 3] : List ℚ) = some 1 ∧
    var ([10, 10, 10] : List ℚ) = some 0 ∧
    var ([1, 2, 1] : List ℚ) = some (1 / 3) := by
  refine ⟨fun l => ⟨?_, fun h2 => var_eq_some l (ne_nil_of_two_le h2)⟩, ?_, ?_, ?_⟩
  · cases l <;> simp [var, mean]
  · norm_num [var, mean]
  · norm_num [var, mean]
  · norm_num [var, mean]

/-- Witness for C4's amended theorem: applying it at `[1,2,1]`, which has
at least 2 values. -/
theorem var_amended_witness :
    var ([1, 2, 1] : List ℚ)
      = some ((([1, 2, 1] : List ℚ).map
          (fun v => (v - ([1, 2, 1] : List ℚ).sum / ((([1, 2, 1] : List ℚ).length : ℕ) : ℚ)) ^ 2)).sum
        / (((([1, 2, 1] : List ℚ).length : ℕ) : ℚ) - 1)) :=
  (var_amended.1 [1, 2, 1]).2 (by decide)

/-- Counterexample to C6: with the singleton groups `[5]` and `[7]` (each
with fewer than 2 values) `cohen` does not fail: it returns a value (in the
source, the NaN arithmetic runs through and a `f64` value is returned; no
panic or error occurs). -/
theorem cohen_singleton_counterexample :
    (cohen [(5 : ℝ)] [(7 : ℝ)]).isSome = true := by
  rw [cohen_eq [(5 : ℝ)] [(7 : ℝ)] (by simp) (by simp)]
  rfl

/-- C6 amended: `cohen` fails (the panic of `mean`'s `unwrap` inside `var`,
modelled as `none`) exactly when at least one group is empty; a group with
exactly one value does not cause an `InsufficientSamples` failure. -/
theorem cohen_none_iff (case control : List ℝ) :
    cohen case control = none ↔ case = [] ∨ control = [] := by
  constructor
  · intro h
    by_contra hne
    push_neg at hne
    rw [cohen_eq case control hne.1 hne.2] at h
    exact Option.noConfusion h
  · rintro (rfl | rfl)
    · simp [cohen, var, mean]
    · cases hv : var case with
      | none => simp [cohen, hv]
      | some v => simp [cohen, hv, var, mean]

/-- Witness for C6's amended theorem: at case `[]`, control `[1]`, `cohen`
fails. -/
theorem cohen_none_iff_witness : cohen ([] : List ℝ) [1] = none :=
  (cohen_none_iff [] [1]).mpr (Or.inl rfl)

/-- A parsed CSV data row, the data the pipeline manipulates once the csv
reader has produced a record and its numeric fields have been parsed: the
row name (field 0) and the remaining fields as numbers. -/
structure CsvRow where
  name : String
  values : List ℝ

/-- The logical output of one run: which header row was written (if any)
and the written data rows as (row name, computed value) pairs, before the
float-to-string formatting of the sink. -/
structure PipelineOutput where
  header : Option (List String)
  rows : List (String × ℝ)

/-- Embeds the row-name comparison of `process_csvs` (src/main.rs lines
73-77): zip the control row names with the case row names and require
equality of every zipped pair. `zip` truncates to the shorter sequence. -/
def validate_alignment (control_row_names case_row_names : List String) : Bool :=
  (control_row_names.zip case_row_names).all fun p => p.1 == p.2

/-- Embeds the result computation of `process_csvs` (src/main.rs lines
85-112): one `cohen` value per zipped (case, control) record pair. The
source's second pass re-yields the header record after `seek`, and
`.skip(1)` drops it, so the net effect is a zip over the data rows. A panic
inside the closure (modelled by `cohen` returning `none`) aborts the whole
run before anything is written, hence the `Option` result. -/
noncomputable def computeResults : List (CsvRow × CsvRow) → Option (List ℝ)
  | [] => some []
  | p :: rest =>
    match cohen p.1.values p.2.values with
    | none => none
    | some d =>
      match computeResults rest with
      | none => none
      | some ds => some (d :: ds)

/-- Embeds `process_csvs` (src/main.rs lines 47-123) on parsed rows: extract
both row-name sequences, compare them with the truncating zip, return early
(nothing written, lines 79-82) on mismatch; otherwise compute all per-row
results (lines 85-112), then write the header row (line 114) and one output
row per (control row name, result) zipped pair (lines 115-119). -/
noncomputable def process_csvs (case_samples control_samples : List CsvRow) :
    Option PipelineOutput :=
  let control_row_names := control_samples.map (fun r => r.name)
  let case_row_names := case_samples.map (fun r => r.name)
  let row_names_match := validate_alignment control_row_names case_row_names
  if !row_names_match then
    some ⟨none, []⟩
  else
    match computeResults (case_samples.zip control_samples) with
    | none => none
    | some result =>
      some ⟨some ["row_names", "cohen_d"], control_row_names.zip result⟩

/-- The truncating alignment check succeeds exactly when the two name
sequences agree at every position that both of them have. -/
theorem validate_alignment_iff (A B : List String) :
    validate_alignment A B = true ↔
      ∀ i, i < A.length → i < B.length → A.getD i "" = B.getD i "" := by
  induction A generalizing B with
  | nil => simp [validate_alignment]
  | cons a A ih =>
    cases B with
    | nil => simp [validate_alignment]
    | cons b B =>
      simp only [validate_alignment, List.zip_cons_cons, List.all_cons,
        Bool.and_eq_true, beq_iff_eq]
      rw [show (List.all (A.zip B) fun p => p.1 == p.2) = validate_alignment A B
        from rfl, ih B]
      constructor
      · rintro ⟨hab, h⟩ i hi1 hi2
        cases i with
        | zero => simpa using hab
        | succ n =>
          have := h n (by simpa using hi1) (by simpa using hi2)
          simpa using this
      · intro h
        refine ⟨by simpa using h 0 (by simp) (by simp), fun i hi1 hi2 => ?_⟩
        have := h (i + 1) (by simpa using hi1) (by simpa using hi2)
        simpa using this

/-- The alignment check always accepts a sequence paired with itself. -/
theorem validate_alignment_refl (l : List String) :
    validate_alignment l l = true :=
  (validate_alignment_iff l l).mpr (fun _ _ _ => rfl)

/-- A successful result computation has one value per zipped row pair. -/
theorem computeResults_length {ps : List (CsvRow × CsvRow)} {rs : List ℝ}
    (h : computeResults ps = some rs) : rs.length = ps.length := by
  induction ps generalizing rs with
  | nil =>
    simp only [computeResults, Option.some.injEq] at h
    subst h
    rfl
  | cons p rest ih =>
    simp only [computeResults] at h
    cases hd : cohen p.1.values p.2.values with
    | none => rw [hd] at h; cases h
    | some d =>
      rw [hd] at h
      cases hr : computeResults rest with
      | none => rw [hr] at h; cases h
      | some ds =>
        rw [hr] at h
        simp only [Option.some.injEq] at h
        subst h
        simp [ih hr]

/-- Helper evaluation: two identical two-element groups have zero pooled
spread, so their Cohen's d is 0. -/
theorem cohen_pair_ones : cohen [(1 : ℝ), 1] [(1 : ℝ), 1] = some 0 := by
  rw [cohen_eq [(1 : ℝ), 1] [(1 : ℝ), 1] (by simp) (by simp)]
  have hp : pooledVarS [(1 : ℝ), 1] [(1 : ℝ), 1] = 0 := by
    norm_num [pooledVarS, varS, meanS]
  rw [hp, Real.sqrt_zero, if_pos rfl]

/-- Counterexample to C2: the check accepts the row-name sequences `["a"]`
(control) and `["a", "b"]` (case) although their lengths differ, and the
pipeline run on such inputs proceeds to produce output (header plus one
data row) instead of reporting a mismatch. -/
theorem validate_alignment_length_counterexample :
    validate_alignment ["a"] ["a", "b"] = true ∧
    (["a"] : List String).length ≠ (["a", "b"] : List String).length ∧
    process_csvs [⟨"a", [1, 1]⟩, ⟨"b", [1, 1]⟩] [⟨"a", [1, 1]⟩]
      = some ⟨some ["row_names", "cohen_d"], [("a", 0)]⟩ := by
  refine ⟨by decide, by decide, ?_⟩
  unfold process_csvs
  simp [validate_alignment, computeResults, cohen_pair_ones]

/-- C2 amended: the alignment check succeeds iff the control and case
row-name sequences agree at every position both of them have; the zip
truncates to the shorter sequence, so differing lengths with an agreeing
common prefix are not reported as a mismatch. -/
theorem validate_alignment_amended (A B : List String) :
    validate_alignment A B = true ↔
      ∀ i, i < A.length → i < B.length → A.getD i "" = B.getD i "" :=
  validate_alignment_iff A B

/-- Witness for C2's amended theorem: `["x"]` against `["x", "y"]` agrees
on the single common position, so the check succeeds. -/
theorem validate_alignment_amended_witness :
    validate_alignment ["x"] ["x", "y"] = true :=
  (validate_alignment_amended ["x"] ["x", "y"]).mpr (by
    intro i h1 _
    have h1' : i < 1 := by simpa using h1
    interval_cases i
    rfl)

/-- C7: whenever the row-name alignment check fails, the run halts with
nothing written: no data rows, and (consistently) no header row either,
since the source returns before the header write at line 114. -/
theorem process_csvs_mismatch_halts (case_samples control_samples : List CsvRow)
    (h : validate_alignment (control_samples.map (fun r => r.name))
      (case_samples.map (fun r => r.name)) = false) :
    process_csvs case_samples control_samples = some ⟨none, []⟩ := by
  unfold process_csvs
  simp [h]

/-- Witness for C7 at a one-row mismatch: case row named `"b"`, control row
named `"a"`. -/
theorem process_csvs_mismatch_halts_witness :
    process_csvs [⟨"b", [1, 1]⟩] [⟨"a", [1, 1]⟩] = some ⟨none, []⟩ :=
  process_csvs_mismatch_halts [⟨"b", [1, 1]⟩] [⟨"a", [1, 1]⟩] (by decide)

/-- C8: on inputs with positionally equal row-name sequences (hence equal
row counts), when every per-row computation succeeds the output is the
header `["row_names", "cohen_d"]` followed by exactly one data row per
input row, in input order: row i pairs row name i with result i. -/
theorem process_csvs_aligned_output (case_samples control_samples : List CsvRow)
    (rs : List ℝ)
    (hnames : case_samples.map (fun r => r.name)
      = control_samples.map (fun r => r.name))
    (hres : computeResults (case_samples.zip control_samples) = some rs) :
    process_csvs case_samples control_samples
      = some ⟨some ["row_names", "cohen_d"],
          (control_samples.map (fun r => r.name)).zip rs⟩ ∧
    ((control_samples.map (fun r => r.name)).zip rs).length
      = control_samples.length := by
  have hlen : case_samples.length = control_samples.length := by
    have := congrArg List.length hnames
    simpa using this
  have hrs : rs.length = control_samples.length := by
    rw [computeResults_length hres, List.length_zip, hlen]
    simp
  constructor
  · simp only [process_csvs]
    rw [hnames, validate_alignment_refl]
    simp only [Bool.not_true, Bool.false_eq_true, if_false, hres]
  · rw [List.length_zip, List.length_map, hrs]
    simp

/-- Witness for C8 at the aligned one-row inputs named `"g"`. -/
theorem process_csvs_aligned_output_witness :
    process_csvs [⟨"g", [1, 1]⟩] [⟨"g", [1, 1]⟩]
      = some ⟨some ["row_names", "cohen_d"],
          (([⟨"g", [1, 1]⟩] : List CsvRow).map (fun r => r.name)).zip [(0 : ℝ)]⟩ ∧
    ((([⟨"g", [1, 1]⟩] : List CsvRow).map (fun r => r.name)).zip [(0 : ℝ)]).length
      = ([⟨"g", [1, 1]⟩] : List CsvRow).length :=
  process_csvs_aligned_output [⟨"g", [1, 1]⟩] [⟨"g", [1, 1]⟩] [0] rfl
    (by simp [computeResults, cohen_pair_ones])

/-- C9: when the inputs have different row counts but their row names agree
on the common prefix, no mismatch is reported: the run proceeds (header
written) and produces output for exactly `min n_case n_control` rows. -/
theorem process_csvs_truncates (case_samples control_samples : List CsvRow)
    (rs : List ℝ)
    (hlen : case_samples.length ≠ control_samples.length)
    (hpref : validate_alignment (control_samples.map (fun r => r.name))
      (case_samples.map (fun r => r.name)) = true)
    (hres : computeResults (case_samples.zip control_samples) = some rs) :
    ∃ out : PipelineOutput,
      process_csvs case_samples control_samples = some out ∧
      out.header = some ["row_names", "cohen_d"] ∧
      out.rows.length = min case_samples.length control_samples.length := by
  refine ⟨⟨some ["row_names", "cohen_d"],
    (control_samples.map (fun r => r.name)).zip rs⟩, ?_, rfl, ?_⟩
  · simp only [process_csvs]
    rw [hpref]
    simp only [Bool.not_true, Bool.false_eq_true, if_false, hres]
  · have hrs : rs.length = min case_samples.length control_samples.length := by
      rw [computeResults_length hres, List.length_zip]
    simp only [List.length_zip, List.length_map, hrs]
    omega

/-- Witness for C9: two case rows against one control row, names agreeing
on the common first position; output has `min 2 1 = 1` row. -/
theorem process_csvs_truncates_witness :
    ∃ out : PipelineOutput,
      process_csvs [⟨"g", [1, 1]⟩, ⟨"h", [1, 1]⟩] [⟨"g", [1, 1]⟩] = some out ∧
      out.header = some ["row_names", "cohen_d"] ∧
      out.rows.length = min ([⟨"g", [1, 1]⟩, ⟨"h", [1, 1]⟩] : List CsvRow).length
        ([⟨"g", [1, 1]⟩] : List CsvRow).length :=
  process_csvs_truncates [⟨"g", [1, 1]⟩, ⟨"h", [1, 1]⟩] [⟨"g", [1, 1]⟩] [0]
    (by decide) (by decide) (by simp [computeResults, cohen_pair_ones])

/-- C10: whenever a run produces output, data row i carries the control
matrix's row name at position i (the output zips the control row names,
not the case row names, with the results). -/
theorem process_csvs_names_from_control (case_samples control_samples : List CsvRow)
    (out : PipelineOutput) (i : ℕ)
    (hrun : process_csvs case_samples control_samples = some out)
    (hi : i < out.rows.length) :
    i < control_samples.length ∧
    (out.rows.getD i ("", 0)).1 = (control_samples.getD i ⟨"", []⟩).name := by
  simp only [process_csvs] at hrun
  by_cases hv : validate_alignment (control_samples.map (fun r => r.name))
      (case_samples.map (fun r => r.name)) = true
  · rw [hv] at hrun
    simp only [Bool.not_true, Bool.false_eq_true, if_false] at hrun
    cases hres : computeResults (case_samples.zip control_samples) with
    | none => rw [hres] at hrun; cases hrun
    | some rs =>
      rw [hres] at hrun
      simp only [Option.some.injEq] at hrun
      subst hrun
      simp only at hi
      have hiz : i < ((control_samples.map (fun r => r.name)).zip rs).length := hi
      have hin : i < (control_samples.map (fun r => r.name)).length := by
        rw [List.length_zip] at hiz
        omega
      have hic : i < control_samples.length := by simpa using hin
      have hir : i < rs.length := by
        rw [List.length_zip] at hiz
        omega
      refine ⟨hic, ?_⟩
      rw [List.getD_eq_getElem _ _ hiz, List.getD_eq_getElem _ _ hic,
        List.getElem_zip, List.getElem_map]
  · rw [Bool.not_eq_true] at hv
    rw [hv] at hrun
    simp only [Bool.not_false, if_true, Option.some.injEq] at hrun
    subst hrun
    simp at hi

/-- Witness for C10 at the one-row aligned inputs named `"g"`: the single
output row carries the control row's name. -/
theorem process_csvs_names_from_control_witness :
    0 < ([⟨"g", [1, 1]⟩] : List CsvRow).length ∧
    ((PipelineOutput.mk (some ["row_names", "cohen_d"]) [("g", 0)]).rows.getD
      0 ("", 0)).1 = (([⟨"g", [1, 1]⟩] : List CsvRow).getD 0 ⟨"", []⟩).name :=
  process_csvs_names_from_control [⟨"g", [1, 1]⟩] [⟨"g", [1, 1]⟩]
    ⟨some ["row_names", "cohen_d"], [("g", 0)]⟩ 0
    (by
      unfold process_csvs
      simp [validate_alignment, computeResults, cohen_pair_ones])
    (by simp)

end FastCohen
